import Mathlib

/-
Shallow embedding of the client-side scripts of the Depts repository
(app_depts/static/app_depts/js/main.js, app_depts/static/app_depts/js/scripts.js,
app_bets/static/app_bets/js/bet_records.js, and the unnamed script file).

Modelling conventions:
* JavaScript numbers are modelled as exact rationals (ℚ).  A value that may be
  NaN (the result of parseFloat on a text input) is modelled as Option ℚ with
  none standing for NaN; where parseFloat's full behaviour matters (getFloatValue)
  a dedicated JsVal type with NaN and signed Infinity is used.
* Math.round(x) rounds half towards positive infinity, i.e. ⌊x + 1/2⌋.
* DOM side effects are modelled as explicit state records / outcome values.
-/

/-- JavaScript Math.round: round half up, i.e. ⌊x + 1/2⌋. -/
def jsRound (q : ℚ) : ℤ := ⌊q + 1/2⌋

/-! ### main.js — Kelly stake calculator wired to the bet form -/

/-- main.js roundToHundreds: Math.round(value / 100) * 100. -/
def roundToHundreds (value : ℚ) : ℤ := jsRound (value / 100) * 100

/-- Helper for formatNumberWithSpaces: insert a space between digit groups of
three, counted from the right (the effect of the regex
value.toString().replace with a group-of-three lookahead). -/
def groupAux : List Char → List Char
  | [] => []
  | c :: rest =>
    if rest.length % 3 = 0 ∧ rest ≠ [] then c :: ' ' :: groupAux rest
    else c :: groupAux rest

/-- main.js formatNumberWithSpaces applied to the (integer) rounded stake. -/
def formatNumberWithSpaces (value : ℤ) : String :=
  ⟨(if value < 0 then ['-'] else []) ++ groupAux (Nat.repr value.natAbs).data⟩

/-- State of the stake fields of the main.js form: the hidden stake input,
the visible stake display, and the _userModified flag set on the display. -/
structure CalcState where
  stakeInput : String
  stakeDisplay : String
  userModified : Bool
deriving DecidableEq

/-- Pure core of main.js calculateStake: the stake before rounding,
bank * limitedKelly * fraction with limitedKelly = max(0, min(fullKelly, 1))
and fullKelly = (p * odds - 1) / (odds - 1), p = prob / 100. -/
def mainStake (bank odds prob fraction : ℚ) : ℚ :=
  let p := prob / 100
  let fullKelly := (p * odds - 1) / (odds - 1)
  let limitedKelly := max 0 (min fullKelly 1)
  bank * limitedKelly * fraction

/-- Validity guard of main.js calculateStake:
odds > 1 && prob > 0 && prob <= 100 && bank > 0. -/
def mainAccepts (bank odds prob : ℚ) : Prop :=
  1 < odds ∧ 0 < prob ∧ prob ≤ 100 ∧ 0 < bank

instance (bank odds prob : ℚ) : Decidable (mainAccepts bank odds prob) :=
  inferInstanceAs (Decidable (_ ∧ _ ∧ _ ∧ _))

/-- main.js calculateStake as a state transformer on the stake fields.
When the guard holds and the user has not modified the display, the rounded
stake is written to both fields; when the guard fails and the user has not
modified the display, both fields are reset to 0; otherwise nothing changes. -/
def calculateStake (bank odds prob fraction : ℚ) (s : CalcState) : CalcState :=
  if 1 < odds ∧ 0 < prob ∧ prob ≤ 100 ∧ 0 < bank then
    let p := prob / 100
    let fullKelly := (p * odds - 1) / (odds - 1)
    let limitedKelly := max 0 (min fullKelly 1)
    let stake := bank * limitedKelly * fraction
    let roundedStake := roundToHundreds stake
    if s.userModified then s
    else { s with stakeInput := toString roundedStake
                  stakeDisplay := formatNumberWithSpaces roundedStake }
  else
    if s.userModified then s
    else { s with stakeInput := "0", stakeDisplay := "0" }

/-- main.js input handler on the stake display: sets _userModified and copies
the display value (with whitespace removed) into the hidden stake input. -/
def stakeDisplayInputHandler (newVal : String) (_s : CalcState) : CalcState :=
  { stakeInput := ⟨newVal.data.filter (fun c => !c.isWhitespace)⟩
    stakeDisplay := newVal
    userModified := true }

/-- main.js recalcWithFlag: clear the _userModified flag, then recalculate. -/
def recalcWithFlag (bank odds prob fraction : ℚ) (s : CalcState) : CalcState :=
  calculateStake bank odds prob fraction { s with userModified := false }

/-- Modelled from the spec's words, for comparison with the code:
stake = bankroll × max(0, min((p·odds − 1)/(odds − 1), 1)) × fraction,
where p is the entered probability percentage divided by 100. -/
def specKellyStake (bankroll odds probPercent fraction : ℚ) : ℚ :=
  bankroll * max 0 (min ((probPercent / 100 * odds - 1) / (odds - 1)) 1) * fraction

/-! ### bet_records.js — standalone Kelly calculator page -/

/-- bet_records.js calculateDefaultProbability: for parsed odds (none = NaN),
null when the odds are falsy or below 1.01, otherwise the probability percent
achieving the default ROI of 5%, capped at 99.9. -/
def calculateDefaultProbability (odds : Option ℚ) : Option ℚ :=
  match odds with
  | none => none
  | some o =>
    -- !odds || odds < 1.01 : o = 0 is already below 1.01, so the falsy
    -- test collapses into the comparison.
    if o < 101/100 then none
    else some (min ((1 + (5 : ℚ)/100) / o * 100) (999/10))

/-- Truthiness/sign test !prob || prob <= 0 on a parsed probability
(none = NaN): none is falsy, some p is falsy exactly when p = 0, so the
combined test collapses to p ≤ 0. -/
def probFalsy : Option ℚ → Bool
  | none => true
  | some p => decide (p ≤ 0)

/-- Result values computed by bet_records.js calculate on the success path. -/
structure BetResult where
  prob : ℚ
  stake : ℚ
  roundedStake : ℤ
  stakeKelly : ℚ
  currentRoi : ℚ
  progressWidth : ℚ

/-- Outcome of bet_records.js calculate: err m models showError(m) followed by
return false; ok models the success path that fills the result block and
returns true. -/
inductive BetOutcome where
  | err (msg : String) : BetOutcome
  | ok (r : BetResult) : BetOutcome

/-- Validation of the odds input: !odds || odds < 1.01 shows the odds error
(o = 0 is already below 1.01, so falsiness collapses into the comparison). -/
def checkOdds (odds : Option ℚ) : Except String ℚ :=
  match odds with
  | none => .error "Коэффициент должен быть больше 1.01"
  | some o => if o < 101/100 then .error "Коэффициент должен быть больше 1.01" else .ok o

/-- Substitution branch of calculate: when the entered probability is falsy or
non-positive, calculateDefaultProbability is consulted; a truthy default is
adopted, otherwise the probability error is shown. -/
def defaultOrError (o : ℚ) : Except String ℚ :=
  match calculateDefaultProbability (some o) with
  | some d => if d = 0 then .error "Невозможно рассчитать вероятность" else .ok d
  | none => .error "Невозможно рассчитать вероятность"

/-- Effective probability used by calculate: the entered probability when it is
positive, otherwise the default derived from the odds. -/
def effectiveProb (prob : Option ℚ) (o : ℚ) : Except String ℚ :=
  match prob with
  | none => defaultOrError o
  | some p => if p ≤ 0 then defaultOrError o else .ok p

/-- Range check prob <= 0 || prob >= 100 on the effective probability. -/
def checkProbRange (pe : ℚ) : Except String ℚ :=
  if pe ≤ 0 ∨ 100 ≤ pe then .error "Вероятность должна быть от 0.1% до 99.9%" else .ok pe

/-- Validation of the bank input: !bank || bank < 100 shows the bank error
(b = 0 is already below 100, so falsiness collapses into the comparison). -/
def checkBank (bank : Option ℚ) : Except String ℚ :=
  match bank with
  | none => .error "Банк должен быть не менее 100"
  | some b => if b < 100 then .error "Банк должен быть не менее 100" else .ok b

/-- Arithmetic core of bet_records.js calculate (lines after the checks):
p = prob/100, fullKelly, limitedKelly, stakeKelly, stake, rounded stake,
current ROI and the progress-bar width. -/
def betCompute (o pe b fraction : ℚ) : BetResult :=
  let p := pe / 100
  let fullKelly := (p * o - 1) / (o - 1)
  let limitedKelly := max 0 (min fullKelly 1)
  let stakeKelly := limitedKelly * fraction
  let stake := b * stakeKelly
  { prob := pe
    stake := stake
    roundedStake := jsRound (stake / 100) * 100
    stakeKelly := stakeKelly
    currentRoi := (p * o - 1) * 100
    progressWidth := min (stakeKelly * 100) 100 }

/-- bet_records.js calculate: sequential validation of odds, probability
(with default substitution), probability range, bank, then the computation.
The odds, probability and bank come from parseFloat on text inputs (none =
NaN); the fraction comes from a select whose options are numeric. -/
def calculate (odds prob bank : Option ℚ) (fraction : ℚ) : BetOutcome :=
  match checkOdds odds with
  | .error m => .err m
  | .ok o =>
    match effectiveProb prob o with
    | .error m => .err m
    | .ok pe =>
      match checkProbRange pe with
      | .error m => .err m
      | .ok pe' =>
        match checkBank bank with
        | .error m => .err m
        | .ok b => .ok (betCompute o pe' b fraction)

/-- Return value of calculate: false on the showError branches, true on
success. -/
def betReturns : BetOutcome → Bool
  | .err _ => false
  | .ok _ => true

/-- Display style of the result block after calculate: showError hides it
(display none); the success path shows it (display block). -/
def resultBlockDisplay : BetOutcome → String
  | .err _ => "none"
  | .ok _ => "block"

/-- Error message shown by calculate, if any. -/
def shownError : BetOutcome → Option String
  | .err m => some m
  | .ok _ => none

/-- Acceptance domain of calculate as it is on the code: odds at least 1.01,
bank at least 100, and either a falsy/non-positive probability (replaced by
the default) or an entered probability strictly between 0 and 100. -/
def betAccepted (odds prob bank : Option ℚ) : Prop :=
  ∃ o b, odds = some o ∧ bank = some b ∧ 101/100 ≤ o ∧ 100 ≤ b ∧
    (probFalsy prob = true ∨ ∃ p, prob = some p ∧ 0 < p ∧ p < 100)

/-! ### scripts.js — phone-number input mask -/

/-- Digits kept by the mask: value.replace of every non-digit with nothing. -/
def digitsOnly (s : List Char) : List Char := s.filter Char.isDigit

/-- Drop a leading 7 or 8 from the digit string (the country digit). -/
def dropCountryDigit : List Char → List Char
  | [] => []
  | c :: rest => if c = '7' ∨ c = '8' then rest else c :: rest

/-- Lay the remaining digits out as +7 (XXX) XXX-XX-XX, piece by piece,
following the four guarded concatenations of the handler. -/
def maskLayout (v : List Char) : List Char :=
  "+7 ".data
    ++ (if 0 < v.length then '(' :: v.take 3 else [])
    ++ (if 3 ≤ v.length then ')' :: ' ' :: (v.drop 3).take 3 else [])
    ++ (if 6 ≤ v.length then '-' :: (v.drop 6).take 2 else [])
    ++ (if 8 ≤ v.length then '-' :: (v.drop 8).take 2 else [])

/-- The phone mask input handler of scripts.js (and of the unnamed file):
strip non-digits, drop a leading 7 or 8, then lay out the mask. -/
def phoneMask (s : List Char) : List Char :=
  maskLayout (dropCountryDigit (digitsOnly s))

/-! ### scripts.js — auto-dismissing alert banners -/

/-- DOM actions performed on the alert elements after page load. -/
inductive AlertEvent where
  | setTransition (idx : ℕ) (value : String) : AlertEvent
  | setOpacity (idx : ℕ) (value : String) : AlertEvent
  | remove (idx : ℕ) : AlertEvent
deriving DecidableEq

/-- Timed trace of the alert-dismissal handler for n alerts present at load,
with timers firing at their nominal delays: if any alert exists, a 5000 ms
timeout fades every alert (transition then opacity 0) and schedules its
removal 500 ms later. -/
def alertEvents (n : ℕ) : List (ℕ × AlertEvent) :=
  if 0 < n then
    (List.range n).flatMap (fun i =>
      [(5000, AlertEvent.setTransition i "opacity 0.5s ease"),
       (5000, AlertEvent.setOpacity i "0"),
       (5000 + 500, AlertEvent.remove i)])
  else []

/-! ### main.js — getFloatValue and the parseFloat model -/

/-- JavaScript numeric value as relevant to parseFloat: NaN, signed Infinity,
or a finite number (modelled exactly as a rational). -/
inductive JsVal where
  | nan : JsVal
  | inf (pos : Bool) : JsVal
  | num (q : ℚ) : JsVal
deriving DecidableEq

/-- Whitespace class of the JavaScript regular expression escape for spaces
(the common members; exotic Unicode spaces behave the same way here). -/
def isJsSpace (c : Char) : Bool :=
  c = ' ' || c = '\t' || c = '\n' || c = '\r' ||
  c.toNat = 11 || c.toNat = 12 || c.toNat = 160 || c.toNat = 0xFEFF

/-- String.replace of the first comma with a dot (the String.replace of
JavaScript with a string pattern replaces only the first occurrence). -/
def replaceFirstComma : List Char → List Char
  | [] => []
  | c :: rest => if c = ',' then '.' :: rest else c :: replaceFirstComma rest

/-- The cleaning done by getFloatValue before parsing: remove every
whitespace character, then replace the first comma with a dot. -/
def cleanValue (v : String) : List Char :=
  replaceFirstComma (v.data.filter (fun c => !isJsSpace c))

/-- Test that the second list starts with the first. -/
def leadsWith : List Char → List Char → Bool
  | [], _ => true
  | _ :: _, [] => false
  | c :: cs, d :: ds => c = d && leadsWith cs ds

/-- Numeric value of a digit string (most significant first). -/
def digitsToNat (ds : List Char) : ℕ :=
  ds.foldl (fun a c => 10 * a + (c.toNat - '0'.toNat)) 0

/-- Exponent part of a parsed number: an optional sign followed by digits;
when no digit follows, the exponent marker is not part of the parsed
number and contributes a factor of one. -/
def expVal (rest : List Char) : ℤ :=
  match rest with
  | '-' :: d =>
    if (d.span Char.isDigit).1 = [] then 0 else -(digitsToNat (d.span Char.isDigit).1 : ℤ)
  | '+' :: d =>
    if (d.span Char.isDigit).1 = [] then 0 else (digitsToNat (d.span Char.isDigit).1 : ℤ)
  | d =>
    if (d.span Char.isDigit).1 = [] then 0 else (digitsToNat (d.span Char.isDigit).1 : ℤ)

/-- Model of JavaScript parseFloat on an exact-arithmetic reading: skip
leading whitespace, read an optional sign, then either the literal word
Infinity or the longest decimal-literal prefix (digits, optional fraction,
optional exponent); NaN when no digits are found. -/
def jsParseFloatCore (s : List Char) : JsVal :=
  let s1 := s.dropWhile isJsSpace
  let sgnNeg := match s1 with | '-' :: _ => true | _ => false
  let s2 := match s1 with | '-' :: r => r | '+' :: r => r | r => r
  if leadsWith "Infinity".data s2 then JsVal.inf (!sgnNeg)
  else
    let ip := (s2.span Char.isDigit).1
    let r1 := (s2.span Char.isDigit).2
    let fp := match r1 with
      | '.' :: r => (r.span Char.isDigit).1
      | _ => []
    let r2 := match r1 with
      | '.' :: r => (r.span Char.isDigit).2
      | r => r
    if ip = [] ∧ fp = [] then JsVal.nan
    else
      let e : ℤ := match r2 with
        | 'e' :: rest => expVal rest
        | 'E' :: rest => expVal rest
        | _ => 0
      let mant : ℚ := (digitsToNat ip : ℚ) + (digitsToNat fp : ℚ) / (10 : ℚ) ^ fp.length
      let v : ℚ := mant * (10 : ℚ) ^ e
      JsVal.num (if sgnNeg then -v else v)

/-- main.js getFloatValue: 0 for a missing element or an empty value,
otherwise parseFloat of the cleaned value with a falsy result (NaN or 0)
collapsed to 0 by the trailing or-with-zero. -/
def getFloatValue (element : Option String) : JsVal :=
  match element with
  | none => JsVal.num 0
  | some v =>
    if v = "" then JsVal.num 0
    else
      match jsParseFloatCore (cleanValue v) with
      | JsVal.nan => JsVal.num 0
      | JsVal.num q => if q = 0 then JsVal.num 0 else JsVal.num q
      | JsVal.inf pos => JsVal.inf pos

/-! ### Helper lemmas about bet_records.js calculate -/

theorem betCompute_stake (o pe b f : ℚ) :
    (betCompute o pe b f).stake = mainStake b o pe f := by
  simp only [betCompute, mainStake]
  ring

theorem betCompute_rounded (o pe b f : ℚ) :
    (betCompute o pe b f).roundedStake = roundToHundreds ((betCompute o pe b f).stake) := rfl

theorem checkOdds_ok {od : Option ℚ} {o : ℚ} (h : checkOdds od = Except.ok o) :
    od = some o ∧ ¬ o < 101/100 := by
  cases od with
  | none => exact Except.noConfusion h
  | some o' =>
    by_cases hc : o' < 101/100
    · simp [checkOdds, hc] at h
    · simp [checkOdds, hc] at h
      subst h
      exact ⟨rfl, hc⟩

theorem checkProbRange_ok {pe pe' : ℚ} (h : checkProbRange pe = Except.ok pe') :
    pe' = pe ∧ 0 < pe ∧ pe < 100 := by
  unfold checkProbRange at h
  split at h
  · exact Except.noConfusion h
  · injection h with h'
    subst h'
    constructor
    · rfl
    · rename_i hc
      push_neg at hc
      exact ⟨lt_of_not_le (fun hle => absurd hle (not_le.mpr hc.1)), hc.2⟩

theorem checkBank_ok {bk : Option ℚ} {b : ℚ} (h : checkBank bk = Except.ok b) :
    bk = some b ∧ ¬ b < 100 := by
  cases bk with
  | none => exact Except.noConfusion h
  | some b' =>
    by_cases hc : b' < 100
    · simp [checkBank, hc] at h
    · simp [checkBank, hc] at h
      subst h
      exact ⟨rfl, hc⟩

theorem defaultProb_pos {o : ℚ} (h : ¬ o < 101/100) :
    0 < min ((1 + (5 : ℚ)/100) / o * 100) (999/10) := by
  have ho : (0:ℚ) < o := lt_of_lt_of_le (by norm_num) (not_lt.mp h)
  have h1 : (0:ℚ) < (1 + (5 : ℚ)/100) / o := div_pos (by norm_num) ho
  exact lt_min (mul_pos h1 (by norm_num)) (by norm_num)

theorem defaultProb_lt_100 {o : ℚ} (_h : ¬ o < 101/100) :
    min ((1 + (5 : ℚ)/100) / o * 100) (999/10) < 100 :=
  lt_of_le_of_lt (min_le_right _ _) (by norm_num)

theorem defaultOrError_ok {o : ℚ} (h : ¬ o < 101/100) :
    defaultOrError o = Except.ok (min ((1 + (5 : ℚ)/100) / o * 100) (999/10)) := by
  have hpos := defaultProb_pos h
  simp [defaultOrError, calculateDefaultProbability, h, ne_of_gt hpos]

theorem effectiveProb_entered {p : ℚ} (o : ℚ) (hp : 0 < p) :
    effectiveProb (some p) o = Except.ok p := by
  simp [effectiveProb, not_le.mpr hp]

theorem effectiveProb_falsy {pr : Option ℚ} {o : ℚ} (hf : probFalsy pr = true)
    (h : ¬ o < 101/100) :
    effectiveProb pr o = Except.ok (min ((1 + (5 : ℚ)/100) / o * 100) (999/10)) := by
  cases pr with
  | none => simp [effectiveProb, defaultOrError_ok h]
  | some p =>
    have hp : p ≤ 0 := by simpa [probFalsy] using hf
    simp [effectiveProb, hp, defaultOrError_ok h]

theorem effectiveProb_ok_cases {pr : Option ℚ} {o pe : ℚ}
    (h : effectiveProb pr o = Except.ok pe) :
    probFalsy pr = true ∨ (pr = some pe ∧ 0 < pe) := by
  cases pr with
  | none => exact Or.inl rfl
  | some p =>
    by_cases hp : p ≤ 0
    · left
      simp [probFalsy, hp]
    · right
      rw [effectiveProb_entered o (not_le.mp hp)] at h
      injection h with h'
      subst h'
      exact ⟨rfl, not_le.mp hp⟩

theorem calculate_eq_ok_of {o p b : ℚ} (f : ℚ) (h1 : 101/100 ≤ o) (h2 : 0 < p)
    (h3 : p < 100) (h4 : 100 ≤ b) :
    calculate (some o) (some p) (some b) f = BetOutcome.ok (betCompute o p b f) := by
  simp only [calculate,
    show checkOdds (some o) = Except.ok o from by simp [checkOdds, not_lt.mpr h1],
    effectiveProb_entered o h2,
    show checkProbRange p = Except.ok p from by
      simp [checkProbRange, not_le.mpr h2, not_le.mpr h3],
    show checkBank (some b) = Except.ok b from by simp [checkBank, not_lt.mpr h4]]

theorem calculate_falsy_ok {o b : ℚ} (f : ℚ) {pr : Option ℚ} (hf : probFalsy pr = true)
    (h1 : 101/100 ≤ o) (h4 : 100 ≤ b) :
    calculate (some o) pr (some b) f =
      BetOutcome.ok (betCompute o (min ((1 + (5 : ℚ)/100) / o * 100) (999/10)) b f) := by
  have ho : ¬ o < 101/100 := not_lt.mpr h1
  have hd0 := defaultProb_pos ho
  have hd1 := defaultProb_lt_100 ho
  simp only [calculate,
    show checkOdds (some o) = Except.ok o from by simp [checkOdds, ho],
    effectiveProb_falsy hf ho,
    show checkProbRange (min ((1 + (5 : ℚ)/100) / o * 100) (999/10))
        = Except.ok (min ((1 + (5 : ℚ)/100) / o * 100) (999/10)) from by
      simp [checkProbRange, not_le.mpr hd0, not_le.mpr hd1],
    show checkBank (some b) = Except.ok b from by simp [checkBank, not_lt.mpr h4]]

theorem calculate_ok_inv {od pr bk : Option ℚ} {f : ℚ} {r : BetResult}
    (h : calculate od pr bk f = BetOutcome.ok r) :
    ∃ o pe b, od = some o ∧ bk = some b ∧ ¬ o < 101/100 ∧ ¬ b < 100 ∧
      effectiveProb pr o = Except.ok pe ∧ 0 < pe ∧ pe < 100 ∧ r = betCompute o pe b f := by
  rcases od with _ | o
  · simp [calculate, checkOdds] at h
  · by_cases hO : o < 101/100
    · simp [calculate, checkOdds, hO] at h
    · cases hp : effectiveProb pr o with
      | error m => simp [calculate, checkOdds, hO, hp] at h
      | ok pe =>
        by_cases hr1 : pe ≤ 0 ∨ 100 ≤ pe
        · simp [calculate, checkOdds, hO, hp, checkProbRange, hr1] at h
        · rcases bk with _ | b
          · simp [calculate, checkOdds, hO, hp, checkProbRange, hr1, checkBank] at h
          · by_cases hB : b < 100
            · simp [calculate, checkOdds, hO, hp, checkProbRange, hr1, checkBank, hB] at h
            · simp only [calculate,
                show checkOdds (some o) = Except.ok o from by simp [checkOdds, hO], hp,
                show checkProbRange pe = Except.ok pe from by simp [checkProbRange, hr1],
                show checkBank (some b) = Except.ok b from by simp [checkBank, hB],
                BetOutcome.ok.injEq] at h
              push_neg at hr1
              exact ⟨o, pe, b, rfl, rfl, hO, hB, hp, hr1.1, hr1.2, h.symm⟩

/-! ### Claim theorems -/

/-- C1: for every input the calculator accepts as valid, the stake computed
before rounding equals bankroll × max(0, min((p·odds − 1)/(odds − 1), 1)) ×
fraction with p the entered probability percentage divided by 100, both for
calculateStake in main.js and for calculate in bet_records.js. -/
theorem c1_kelly_formula : ∀ bank odds prob fraction : ℚ,
    (mainAccepts bank odds prob →
      mainStake bank odds prob fraction = specKellyStake bank odds prob fraction) ∧
    (∀ r : BetResult, 0 < prob →
      calculate (some odds) (some prob) (some bank) fraction = BetOutcome.ok r →
      r.stake = specKellyStake bank odds prob fraction) := by
  intro b o p f
  constructor
  · intro _
    simp only [mainStake, specKellyStake]
  · intro r hp h
    obtain ⟨o', pe, b', ho', hb', _, _, hep, _, _, hr⟩ := calculate_ok_inv h
    injection ho' with ho2
    injection hb' with hb2
    subst ho2
    subst hb2
    rw [effectiveProb_entered o hp] at hep
    injection hep with hpe
    subst hpe
    rw [hr, betCompute_stake]
    simp only [mainStake, specKellyStake]

/-- Witness for C1 at bank 1000, odds 2, probability 60 %, fraction 1. -/
theorem c1_kelly_formula_witness :
    mainStake 1000 2 60 1 = specKellyStake 1000 2 60 1 ∧
    (betCompute 2 60 1000 1).stake = specKellyStake 1000 2 60 1 :=
  ⟨(c1_kelly_formula 1000 2 60 1).1 (by norm_num [mainAccepts]),
   (c1_kelly_formula 1000 2 60 1).2 (betCompute 2 60 1000 1) (by norm_num)
     (calculate_eq_ok_of 1 (by norm_num) (by norm_num) (by norm_num) (by norm_num))⟩

/-- C2: on every set of inputs accepted as valid by both implementations, the
rounded stake of calculate in bet_records.js equals roundToHundreds of the
stake of calculateStake in main.js (and such inputs are indeed accepted by
main.js as well). -/
theorem c2_same_rounded_stake : ∀ bank odds prob fraction : ℚ, ∀ r : BetResult,
    101/100 ≤ odds → 0 < prob → prob < 100 → 100 ≤ bank →
    calculate (some odds) (some prob) (some bank) fraction = BetOutcome.ok r →
    r.roundedStake = roundToHundreds (mainStake bank odds prob fraction) ∧
    mainAccepts bank odds prob := by
  intro b o p f r h1 h2 h3 h4 h
  rw [calculate_eq_ok_of f h1 h2 h3 h4] at h
  injection h with h'
  constructor
  · rw [← h', betCompute_rounded, betCompute_stake]
  · exact ⟨by linarith, h2, le_of_lt h3, by linarith⟩

/-- Witness for C2 at bank 1000, odds 2, probability 60 %, fraction 1. -/
theorem c2_same_rounded_stake_witness :
    (betCompute 2 60 1000 1).roundedStake = roundToHundreds (mainStake 1000 2 60 1) :=
  (c2_same_rounded_stake 1000 2 60 1 (betCompute 2 60 1000 1)
    (by norm_num) (by norm_num) (by norm_num) (by norm_num)
    (calculate_eq_ok_of 1 (by norm_num) (by norm_num) (by norm_num) (by norm_num))).1

/-- C3 counterexample: the claimed acceptance domain (odds strictly above
1.01, entered probability strictly between 0 and 100) is wrong on the code:
calculate computes a stake (returns true) at odds exactly 1.01, and also at
an entered probability of 0, where the default probability is substituted
instead of an error being shown. -/
theorem c3_domain_counterexample :
    betReturns (calculate (some (101/100)) (some 50) (some 1000) 1) = true ∧
    betReturns (calculate (some 2) (some 0) (some 1000) 1) = true := by
  constructor
  · rw [calculate_eq_ok_of 1 (by norm_num) (by norm_num) (by norm_num) (by norm_num)]
    rfl
  · rw [calculate_falsy_ok 1 (by norm_num [probFalsy]) (by norm_num) (by norm_num)]
    rfl

/-- C3 amended: calculate computes a stake (returns true) exactly when the
odds are at least 1.01, the bank is at least 100, and the probability is
either falsy/non-positive (in which case the default probability derived
from the odds is substituted) or strictly between 0 and 100; on every input
outside that domain it shows an error message, hides the result block and
returns false. -/
theorem c3_domain_amended : ∀ od pr bk : Option ℚ, ∀ f : ℚ,
    (betReturns (calculate od pr bk f) = true ↔ betAccepted od pr bk) ∧
    (¬ betAccepted od pr bk →
      ∃ m, calculate od pr bk f = BetOutcome.err m ∧
        resultBlockDisplay (calculate od pr bk f) = "none" ∧
        betReturns (calculate od pr bk f) = false) := by
  intro od pr bk f
  have hiff : betReturns (calculate od pr bk f) = true ↔ betAccepted od pr bk := by
    constructor
    · intro h
      cases hc : calculate od pr bk f with
      | err m => rw [hc] at h; exact Bool.noConfusion h
      | ok r =>
        obtain ⟨o, pe, b, hod, hbk, ho2, hb2, hep, hp0, hp1, -⟩ := calculate_ok_inv hc
        refine ⟨o, b, hod, hbk, not_lt.mp ho2, not_lt.mp hb2, ?_⟩
        rcases effectiveProb_ok_cases hep with hf | ⟨hpr, hpe⟩
        · exact Or.inl hf
        · exact Or.inr ⟨pe, hpr, hp0, hp1⟩
    · rintro ⟨o, b, rfl, rfl, h1, h4, hdisj⟩
      rcases hdisj with hf | ⟨p, rfl, hp0, hp1⟩
      · rw [calculate_falsy_ok f hf h1 h4]
        rfl
      · rw [calculate_eq_ok_of f h1 hp0 hp1 h4]
        rfl
  refine ⟨hiff, ?_⟩
  intro hna
  cases hc : calculate od pr bk f with
  | err m => exact ⟨m, rfl, rfl, rfl⟩
  | ok r => exact absurd (hiff.mp (by rw [hc]; rfl)) hna

/-- Witness for C3 (amended) at odds 2, entered probability 50 %, bank 1000. -/
theorem c3_domain_amended_witness :
    betReturns (calculate (some 2) (some 50) (some 1000) 1) = true :=
  (c3_domain_amended (some 2) (some 50) (some 1000) 1).1.mpr
    ⟨2, 1000, rfl, rfl, by norm_num, by norm_num,
      Or.inr ⟨50, rfl, by norm_num, by norm_num⟩⟩

theorem roundToHundreds_near (q : ℚ) : |(roundToHundreds q : ℚ) - q| ≤ 50 := by
  have h1 : (⌊q/100 + 1/2⌋ : ℚ) ≤ q/100 + 1/2 := Int.floor_le _
  have h2 : q/100 + 1/2 < (⌊q/100 + 1/2⌋ : ℚ) + 1 := Int.lt_floor_add_one _
  simp only [roundToHundreds, jsRound]
  push_cast
  rw [abs_le]
  constructor
  · linarith
  · linarith

/-- C4: on every valid input the stake shown is the computed Kelly stake
rounded via Math.round(stake / 100) * 100, in both implementations: main.js
writes roundToHundreds of the stake into both stake fields (in the automatic
state), and bet_records.js displays a rounded stake equal to
jsRound(stake/100)·100; the result is a multiple of 100 within 50 of the
unrounded stake. -/
theorem c4_rounded_display :
    ∀ bank odds prob fraction : ℚ, ∀ s : CalcState, ∀ od pr bk : Option ℚ, ∀ r : BetResult,
    (mainAccepts bank odds prob → s.userModified = false →
      (calculateStake bank odds prob fraction s).stakeInput
          = toString (roundToHundreds (mainStake bank odds prob fraction)) ∧
      (calculateStake bank odds prob fraction s).stakeDisplay
          = formatNumberWithSpaces (roundToHundreds (mainStake bank odds prob fraction)) ∧
      (100 : ℤ) ∣ roundToHundreds (mainStake bank odds prob fraction) ∧
      |(roundToHundreds (mainStake bank odds prob fraction) : ℚ)
          - mainStake bank odds prob fraction| ≤ 50) ∧
    (calculate od pr bk fraction = BetOutcome.ok r →
      r.roundedStake = jsRound (r.stake / 100) * 100 ∧
      (100 : ℤ) ∣ r.roundedStake ∧ |(r.roundedStake : ℚ) - r.stake| ≤ 50) := by
  intro b o p f s od pr bk r
  constructor
  · intro hA hU
    have hA' : 1 < o ∧ 0 < p ∧ p ≤ 100 ∧ 0 < b := hA
    refine ⟨?_, ?_, ?_, roundToHundreds_near _⟩
    · unfold calculateStake
      rw [if_pos hA']
      simp [hU, mainStake]
    · unfold calculateStake
      rw [if_pos hA']
      simp [hU, mainStake]
    · exact Dvd.intro_left _ rfl
  · intro h
    obtain ⟨o', pe, b', -, -, -, -, -, -, -, hr⟩ := calculate_ok_inv h
    subst hr
    refine ⟨rfl, Dvd.intro_left _ rfl, ?_⟩
    rw [betCompute_rounded]
    exact roundToHundreds_near _

/-- Witness for C4 at bank 1000, odds 2, probability 60 %, fraction 1. -/
theorem c4_rounded_display_witness :
    (calculateStake 1000 2 60 1 ⟨"", "", false⟩).stakeInput
        = toString (roundToHundreds (mainStake 1000 2 60 1)) ∧
    (betCompute 2 60 1000 1).roundedStake
        = jsRound ((betCompute 2 60 1000 1).stake / 100) * 100 :=
  ⟨((c4_rounded_display 1000 2 60 1 ⟨"", "", false⟩ (some 2) (some 60) (some 1000)
      (betCompute 2 60 1000 1)).1 (by norm_num [mainAccepts]) rfl).1,
   ((c4_rounded_display 1000 2 60 1 ⟨"", "", false⟩ (some 2) (some 60) (some 1000)
      (betCompute 2 60 1000 1)).2
      (calculate_eq_ok_of 1 (by norm_num) (by norm_num) (by norm_num) (by norm_num))).1⟩

/-- C5 counterexample: the Kelly fraction is not clamped to the unit
interval before scaling; at bank 1000, odds 2, probability 60 % and a
fraction of 2, the computed stake (400) differs from the stake that the
clamped fraction would give (200). -/
theorem c5_fraction_counterexample :
    mainStake 1000 2 60 2 ≠ mainStake 1000 2 60 (max 0 (min 2 1)) := by
  norm_num [mainStake, min_def, max_def]

/-- C5 amended: the fraction is used unclamped in both implementations; the
stake is linear in the fraction, so it coincides with the clamped-fraction
stake exactly on fractions already in the unit interval (which covers the
select's offered values 1, 0.5, 0.25). -/
theorem c5_fraction_unclamped : ∀ bank odds prob fraction : ℚ,
    mainStake bank odds prob fraction = fraction * mainStake bank odds prob 1 ∧
    (betCompute odds prob bank fraction).stake
        = fraction * (betCompute odds prob bank 1).stake ∧
    (0 ≤ fraction ∧ fraction ≤ 1 →
      mainStake bank odds prob fraction
          = mainStake bank odds prob (max 0 (min fraction 1))) := by
  intro b o p f
  refine ⟨?_, ?_, ?_⟩
  · simp only [mainStake]
    ring
  · simp only [betCompute]
    ring
  · rintro ⟨h0, h1⟩
    rw [min_eq_left h1, max_eq_right h0]

/-- Witness for C5 (amended) at fraction one half. -/
theorem c5_fraction_unclamped_witness :
    mainStake 1000 2 60 (1/2) = mainStake 1000 2 60 (max 0 (min (1/2) 1)) :=
  (c5_fraction_unclamped 1000 2 60 (1/2)).2.2 ⟨by norm_num, by norm_num⟩

/-- C6: calculateDefaultProbability inverts the ROI formula: whenever the
odds are at least 1.01 and the suggestion is not capped, it returns the
probability percent p with (p/100)·odds − 1 = 5 %; every returned value is
capped at 99.9; odds below 1.01 or missing give null. -/
theorem c6_default_probability :
    (∀ o : ℚ, 101/100 ≤ o → (1 + (5:ℚ)/100) / o * 100 ≤ 999/10 →
      calculateDefaultProbability (some o) = some ((1 + (5:ℚ)/100) / o * 100) ∧
      ((1 + (5:ℚ)/100) / o * 100) / 100 * o - 1 = 5/100) ∧
    (∀ o p : ℚ, calculateDefaultProbability (some o) = some p → p ≤ 999/10) ∧
    (∀ o : ℚ, o < 101/100 → calculateDefaultProbability (some o) = none) ∧
    calculateDefaultProbability none = none := by
  refine ⟨?_, ?_, ?_, rfl⟩
  · intro o h1 h2
    have ho : ¬ o < 101/100 := not_lt.mpr h1
    have hne : o ≠ 0 := by
      intro h
      rw [h] at h1
      norm_num at h1
    constructor
    · simp [calculateDefaultProbability, ho, min_eq_left h2]
    · field_simp
      ring
  · intro o p h
    by_cases ho : o < 101/100
    · simp [calculateDefaultProbability, ho] at h
    · simp [calculateDefaultProbability, ho] at h
      rw [← h]
      exact min_le_right _ _
  · intro o h
    simp [calculateDefaultProbability, h]

/-- Witness for C6 at odds 2: the suggestion is 52.5 %. -/
theorem c6_default_probability_witness :
    calculateDefaultProbability (some 2) = some ((1 + (5:ℚ)/100) / 2 * 100) :=
  (c6_default_probability.1 2 (by norm_num) (by norm_num)).1

theorem calculateStake_userModified (bank odds prob fraction : ℚ) (s : CalcState) :
    (calculateStake bank odds prob fraction s).userModified = s.userModified := by
  unfold calculateStake
  split
  · split
    · rfl
    · rfl
  · split
    · rfl
    · rfl

/-- C7: once the _userModified flag is set, calculateStake leaves the stake
fields (indeed the whole state) unchanged in both branches; the stake-display
input handler sets the flag; recalcWithFlag (wired to the bank, odds,
probability and fraction inputs) clears the flag and recalculates on the
cleared state, re-enabling automatic filling. -/
theorem c7_user_modified_frame :
    ∀ bank odds prob fraction : ℚ, ∀ v : String, ∀ s : CalcState,
    (s.userModified = true → calculateStake bank odds prob fraction s = s) ∧
    (stakeDisplayInputHandler v s).userModified = true ∧
    (recalcWithFlag bank odds prob fraction s).userModified = false ∧
    recalcWithFlag bank odds prob fraction s
        = calculateStake bank odds prob fraction { s with userModified := false } := by
  intro b o p f v s
  refine ⟨?_, rfl, ?_, rfl⟩
  · intro h
    unfold calculateStake
    split
    · simp [h]
    · simp [h]
  · unfold recalcWithFlag
    rw [calculateStake_userModified]

/-- Witness for C7 on a state with the flag set. -/
theorem c7_user_modified_frame_witness :
    calculateStake 1000 2 60 1 ⟨"700", "700", true⟩ = ⟨"700", "700", true⟩ :=
  (c7_user_modified_frame 1000 2 60 1 "" ⟨"700", "700", true⟩).1 rfl

/-! ### Helper lemmas for the phone mask -/

theorem digitsOnly_append (a b : List Char) :
    digitsOnly (a ++ b) = digitsOnly a ++ digitsOnly b := by
  simp [digitsOnly]

theorem digitsOnly_cons_nondigit {c : Char} (hc : c.isDigit = false) (l : List Char) :
    digitsOnly (c :: l) = digitsOnly l := by
  simp [digitsOnly, List.filter_cons, hc]

theorem digitsOnly_all (s : List Char) : ∀ c ∈ digitsOnly s, c.isDigit = true := by
  intro c hc
  exact (List.mem_filter.mp hc).2

theorem dropCountryDigit_sub (v : List Char) {c : Char} (hc : c ∈ dropCountryDigit v) :
    c ∈ v := by
  cases v with
  | nil => exact hc
  | cons a rest =>
    by_cases h : a = '7' ∨ a = '8'
    · rw [show dropCountryDigit (a :: rest) = rest from by simp [dropCountryDigit, h]] at hc
      exact List.mem_cons_of_mem a hc
    · rwa [show dropCountryDigit (a :: rest) = a :: rest
          from by simp [dropCountryDigit, h]] at hc

theorem take_concat10 (v : List Char) :
    (if 0 < v.length then v.take 3 else [])
      ++ ((if 3 ≤ v.length then (v.drop 3).take 3 else [])
      ++ ((if 6 ≤ v.length then (v.drop 6).take 2 else [])
      ++ (if 8 ≤ v.length then (v.drop 8).take 2 else []))) = v.take 10 := by
  have t1 : v.take 3 ++ (v.drop 3).take 3 = v.take 6 := by
    rw [← List.take_add]
  have t2 : v.take 6 ++ (v.drop 6).take 2 = v.take 8 := by
    rw [← List.take_add]
  have t3 : v.take 8 ++ (v.drop 8).take 2 = v.take 10 := by
    rw [← List.take_add]
  by_cases h1 : 0 < v.length
  · by_cases h3 : 3 ≤ v.length
    · by_cases h6 : 6 ≤ v.length
      · by_cases h8 : 8 ≤ v.length
        · rw [if_pos h1, if_pos h3, if_pos h6, if_pos h8,
            ← List.append_assoc, t1, ← List.append_assoc, t2, t3]
        · rw [if_pos h1, if_pos h3, if_pos h6, if_neg h8, List.append_nil,
            ← List.append_assoc, t1, t2,
            List.take_of_length_le (show v.length ≤ 8 by omega),
            List.take_of_length_le (show v.length ≤ 10 by omega)]
      · have h8 : ¬ 8 ≤ v.length := by omega
        rw [if_pos h1, if_pos h3, if_neg h6, if_neg h8, List.append_nil, List.append_nil,
          t1, List.take_of_length_le (show v.length ≤ 6 by omega),
          List.take_of_length_le (show v.length ≤ 10 by omega)]
    · have h6 : ¬ 6 ≤ v.length := by omega
      have h8 : ¬ 8 ≤ v.length := by omega
      rw [if_pos h1, if_neg h3, if_neg h6, if_neg h8]
      simp only [List.append_nil]
      rw [List.take_of_length_le (show v.length ≤ 3 by omega),
        List.take_of_length_le (show v.length ≤ 10 by omega)]
  · have hv : v = [] := List.length_eq_zero.mp (by omega)
    subst hv
    simp

theorem digitsOnly_pieces {v : List Char} (h : ∀ c ∈ v, c.isDigit = true) :
    digitsOnly ((if 0 < v.length then '(' :: v.take 3 else [])
      ++ ((if 3 ≤ v.length then ')' :: ' ' :: (v.drop 3).take 3 else [])
      ++ ((if 6 ≤ v.length then '-' :: (v.drop 6).take 2 else [])
      ++ (if 8 ≤ v.length then '-' :: (v.drop 8).take 2 else [])))) = v.take 10 := by
  have hsub : ∀ (l : List Char), l ⊆ v → digitsOnly l = l := fun l hl =>
    List.filter_eq_self.mpr (fun c hc => h c (hl hc))
  have p1 : digitsOnly (if 0 < v.length then '(' :: v.take 3 else [])
      = (if 0 < v.length then v.take 3 else []) := by
    split
    · rw [digitsOnly_cons_nondigit (by decide)]
      exact hsub _ (List.take_subset _ _)
    · rfl
  have p2 : digitsOnly (if 3 ≤ v.length then ')' :: ' ' :: (v.drop 3).take 3 else [])
      = (if 3 ≤ v.length then (v.drop 3).take 3 else []) := by
    split
    · rw [digitsOnly_cons_nondigit (by decide), digitsOnly_cons_nondigit (by decide)]
      exact hsub _ (fun c hc => List.drop_subset _ _ (List.take_subset _ _ hc))
    · rfl
  have p3 : digitsOnly (if 6 ≤ v.length then '-' :: (v.drop 6).take 2 else [])
      = (if 6 ≤ v.length then (v.drop 6).take 2 else []) := by
    split
    · rw [digitsOnly_cons_nondigit (by decide)]
      exact hsub _ (fun c hc => List.drop_subset _ _ (List.take_subset _ _ hc))
    · rfl
  have p4 : digitsOnly (if 8 ≤ v.length then '-' :: (v.drop 8).take 2 else [])
      = (if 8 ≤ v.length then (v.drop 8).take 2 else []) := by
    split
    · rw [digitsOnly_cons_nondigit (by decide)]
      exact hsub _ (fun c hc => List.drop_subset _ _ (List.take_subset _ _ hc))
    · rfl
  rw [digitsOnly_append, digitsOnly_append, digitsOnly_append, p1, p2, p3, p4]
  exact take_concat10 v

theorem digitsOnly_maskLayout {v : List Char} (h : ∀ c ∈ v, c.isDigit = true) :
    digitsOnly (maskLayout v) = '7' :: v.take 10 := by
  unfold maskLayout
  simp only [List.append_assoc]
  rw [digitsOnly_append, digitsOnly_pieces h]
  rfl

theorem maskLayout_take10 (v : List Char) : maskLayout (v.take 10) = maskLayout v := by
  unfold maskLayout
  simp only [List.length_take, List.take_take, List.drop_take,
    show min 3 10 = 3 from rfl, show 10 - 3 = 7 from rfl, show min 3 7 = 3 from rfl,
    show 10 - 6 = 4 from rfl, show min 2 4 = 2 from rfl,
    show 10 - 8 = 2 from rfl, show min 2 2 = 2 from rfl,
    show (0 < min 10 v.length) ↔ 0 < v.length from by omega,
    show (3 ≤ min 10 v.length) ↔ 3 ≤ v.length from by omega,
    show (6 ≤ min 10 v.length) ↔ 6 ≤ v.length from by omega,
    show (8 ≤ min 10 v.length) ↔ 8 ≤ v.length from by omega]

/-- C8: the phone mask is idempotent — applying it to its own output changes
nothing — every output starts with the +7 and a space, and at most ten
digits follow that three-character lead-in. -/
theorem c8_phone_mask_idempotent : ∀ s : List Char,
    phoneMask (phoneMask s) = phoneMask s ∧
    (phoneMask s).take 3 = "+7 ".data ∧
    (digitsOnly ((phoneMask s).drop 3)).length ≤ 10 := by
  intro s
  have hd : ∀ c ∈ dropCountryDigit (digitsOnly s), c.isDigit = true := by
    intro c hc
    exact digitsOnly_all s c (dropCountryDigit_sub (digitsOnly s) hc)
  refine ⟨?_, ?_, ?_⟩
  · show maskLayout (dropCountryDigit (digitsOnly
        (maskLayout (dropCountryDigit (digitsOnly s))))) = _
    rw [digitsOnly_maskLayout hd]
    rw [show dropCountryDigit ('7' :: (dropCountryDigit (digitsOnly s)).take 10)
          = (dropCountryDigit (digitsOnly s)).take 10 from by simp [dropCountryDigit]]
    exact maskLayout_take10 _
  · show (maskLayout (dropCountryDigit (digitsOnly s))).take 3 = _
    unfold maskLayout
    simp only [List.append_assoc]
    exact List.take_left' rfl
  · show (digitsOnly ((maskLayout (dropCountryDigit (digitsOnly s))).drop 3)).length ≤ 10
    have hX : (maskLayout (dropCountryDigit (digitsOnly s))).drop 3
        = ((if 0 < (dropCountryDigit (digitsOnly s)).length
              then '(' :: (dropCountryDigit (digitsOnly s)).take 3 else [])
          ++ (if 3 ≤ (dropCountryDigit (digitsOnly s)).length
              then ')' :: ' ' :: ((dropCountryDigit (digitsOnly s)).drop 3).take 3 else [])
          ++ (if 6 ≤ (dropCountryDigit (digitsOnly s)).length
              then '-' :: ((dropCountryDigit (digitsOnly s)).drop 6).take 2 else [])
          ++ (if 8 ≤ (dropCountryDigit (digitsOnly s)).length
              then '-' :: ((dropCountryDigit (digitsOnly s)).drop 8).take 2 else [])) := rfl
    rw [hX]
    simp only [List.append_assoc]
    rw [digitsOnly_pieces hd]
    exact List.length_take_le _ _

/-- C9: getFloatValue is total and never yields NaN — for a missing element,
an empty value, or a value whose cleaned form (whitespace stripped, first
comma turned into a dot) does not parse as a number, it returns 0. -/
theorem c9_getFloatValue_total :
    (∀ e : Option String, getFloatValue e ≠ JsVal.nan) ∧
    getFloatValue none = JsVal.num 0 ∧
    getFloatValue (some "") = JsVal.num 0 ∧
    (∀ v : String, jsParseFloatCore (cleanValue v) = JsVal.nan →
      getFloatValue (some v) = JsVal.num 0) := by
  refine ⟨?_, rfl, rfl, ?_⟩
  · intro e
    cases e with
    | none => simp [getFloatValue]
    | some v =>
      by_cases hv : v = ""
      · simp [getFloatValue, hv]
      · simp only [getFloatValue, if_neg hv]
        cases h : jsParseFloatCore (cleanValue v) with
        | nan => simp
        | num q =>
          show (if q = 0 then JsVal.num 0 else JsVal.num q) ≠ JsVal.nan
          split
          · simp
          · simp
        | inf pos => simp
  · intro v h
    by_cases hv : v = ""
    · simp [getFloatValue, hv]
    · simp [getFloatValue, hv, h]

/-- Witness for C9 on the unparseable value abc. -/
theorem c9_getFloatValue_total_witness :
    getFloatValue (some "abc") = JsVal.num 0 :=
  c9_getFloatValue_total.2.2.2 "abc" (by decide)

/-- C10: in the nominal-delay timer model, every alert present at load gets
its fade (transition style and opacity 0) at 5000 ms after DOMContentLoaded
and is removed at 5500 ms, and no removal happens at any other time. -/
theorem c10_alert_dismissal : ∀ n i : ℕ, i < n →
    ((5000, AlertEvent.setTransition i "opacity 0.5s ease") ∈ alertEvents n ∧
     (5000, AlertEvent.setOpacity i "0") ∈ alertEvents n ∧
     (5500, AlertEvent.remove i) ∈ alertEvents n) ∧
    (∀ t j : ℕ, (t, AlertEvent.remove j) ∈ alertEvents n → t = 5500) := by
  intro n i hi
  have hn : 0 < n := lt_of_le_of_lt (Nat.zero_le i) hi
  constructor
  · refine ⟨?_, ?_, ?_⟩ <;>
    · simp only [alertEvents, if_pos hn, List.mem_flatMap]
      exact ⟨i, List.mem_range.mpr hi, by simp⟩
  · intro t j hmem
    simp only [alertEvents, if_pos hn, List.mem_flatMap] at hmem
    obtain ⟨k, -, hk⟩ := hmem
    simp only [List.mem_cons, List.mem_singleton, Prod.mk.injEq] at hk
    rcases hk with ⟨-, h⟩ | ⟨-, h⟩ | ⟨ht, -⟩ | h
    · exact absurd h (by simp)
    · exact absurd h (by simp)
    · exact ht
    · exact absurd h (by simp)

/-- Witness for C10 with a single alert. -/
theorem c10_alert_dismissal_witness :
    (5500, AlertEvent.remove 0) ∈ alertEvents 1 :=
  ((c10_alert_dismissal 1 0 (by norm_num)).1).2.2
